import Mathlib

/-!
Verification of the mirror-reflection data generator
(`src/generator.py`, `src/prompts.py`).

The geometric pipeline manipulates Python floats; the shallow embedding
models them as real numbers.  Canvas sizes are natural numbers and the
integer divisions `width // 2`, `height // 2` of the source are kept as
natural-number division before casting to the reals.
-/

namespace MirrorGen

noncomputable section

/-- Task data produced by `TaskGenerator._generate_task_data`
(src/generator.py lines 72-92).  The `type` field is the constant
string `"default"` and is omitted. -/
structure TaskData where
  reflectivity : ℝ
  theta_incident_degrees : ℝ
  theta_incident_radians : ℝ
  theta_reflected_degrees : ℝ
  theta_reflected_radians : ℝ

/-- Python `random.uniform(a, b)`: returns `a + (b - a) * u` where `u`
is the entropy drawn from `random.random()` (CPython definition);
no validation of the range is performed. -/
def uniform (a b u : ℝ) : ℝ := a + (b - a) * u

/-- Python `math.radians(d) = d * (pi / 180)`. -/
def radiansOfDegrees (d : ℝ) : ℝ := d * (Real.pi / 180)

/-- Embedding of `TaskGenerator._generate_task_data` (src/generator.py lines 72-92),
with the two entropy draws `ur`, `ut` (the values of `random.random()`
consumed by the two `random.uniform` calls) made explicit inputs. -/
def generateTaskData (rmin rmax tmin tmax ur ut : ℝ) : TaskData :=
  let reflectivity := uniform rmin rmax ur
  let theta_degrees := uniform tmin tmax ut
  let theta_radians := radiansOfDegrees theta_degrees
  { reflectivity := reflectivity
    theta_incident_degrees := theta_degrees
    theta_incident_radians := theta_radians
    theta_reflected_degrees := theta_degrees
    theta_reflected_radians := theta_radians }

/-- Reflected-ray terminal endpoint computed by
`TaskGenerator._render_final_state` (src/generator.py lines 237-278):
candidate intersections of the reflected ray with the top, right and
left canvas edges, filtered to the canvas bounds, sorted by the stored
distance key with the first (least) element selected; top-edge fallback
with `x` clamped into `[0, width]` when no candidate survives. -/
def reflectedEndpoint (θ : ℝ) (width height : ℕ) : ℝ × ℝ :=
  let center_x : ℝ := ((width / 2 : ℕ) : ℝ)
  let mirror_y : ℝ := ((height / 2 : ℕ) : ℝ)
  let distance_to_top : ℝ := mirror_y
  let x_at_top : ℝ := center_x + distance_to_top * Real.tan θ
  let y_at_right : Option ℝ :=
    if 0 < θ then some (mirror_y - ((width : ℝ) - center_x) / Real.tan θ) else none
  let y_at_left : Option ℝ :=
    if θ < 0 then some (mirror_y - center_x / Real.tan θ) else none
  let intersections : List (ℝ × ℝ × ℝ) :=
    (if 0 ≤ x_at_top ∧ x_at_top ≤ (width : ℝ) then
        [(x_at_top, 0, distance_to_top / Real.cos θ)] else [])
    ++ (match y_at_right with
        | some y =>
          if 0 ≤ y ∧ y ≤ mirror_y then
            [((width : ℝ), y, ((width : ℝ) - center_x) / Real.cos θ)] else []
        | none => [])
    ++ (match y_at_left with
        | some y =>
          if 0 ≤ y ∧ y ≤ mirror_y then
            [((0 : ℝ), y, center_x / Real.cos θ)] else []
        | none => [])
  match intersections with
  | [] => (max 0 (min (width : ℝ) x_at_top), 0)
  | c :: rest =>
      let best := rest.foldl (fun b p => if p.2.2 < b.2.2 then p else b) c
      (best.1, best.2.1)

/-- Reflected-ray terminal endpoint computed inside the transition-frame
loop of `TaskGenerator._create_reflection_animation_frames`
(src/generator.py lines 393-434), transcribed independently of
`reflectedEndpoint`. -/
def animFinalEndpoint (θ : ℝ) (width height : ℕ) : ℝ × ℝ :=
  let center_x : ℝ := ((width / 2 : ℕ) : ℝ)
  let mirror_y : ℝ := ((height / 2 : ℕ) : ℝ)
  let distance_to_top : ℝ := mirror_y
  let x_at_top : ℝ := center_x + distance_to_top * Real.tan θ
  let y_at_right : Option ℝ :=
    if 0 < θ then some (mirror_y - ((width : ℝ) - center_x) / Real.tan θ) else none
  let y_at_left : Option ℝ :=
    if θ < 0 then some (mirror_y - center_x / Real.tan θ) else none
  let intersections : List (ℝ × ℝ × ℝ) :=
    (if 0 ≤ x_at_top ∧ x_at_top ≤ (width : ℝ) then
        [(x_at_top, 0, distance_to_top / Real.cos θ)] else [])
    ++ (match y_at_right with
        | some y =>
          if 0 ≤ y ∧ y ≤ mirror_y then
            [((width : ℝ), y, ((width : ℝ) - center_x) / Real.cos θ)] else []
        | none => [])
    ++ (match y_at_left with
        | some y =>
          if 0 ≤ y ∧ y ≤ mirror_y then
            [((0 : ℝ), y, center_x / Real.cos θ)] else []
        | none => [])
  match intersections with
  | [] => (max 0 (min (width : ℝ) x_at_top), 0)
  | c :: rest =>
      let best := rest.foldl (fun b p => if p.2.2 < b.2.2 then p else b) c
      (best.1, best.2.1)

/-- Horizontal canvas centre `center_x = width // 2` (integer division,
as in the source), as a real number. -/
def centerX (w : ℕ) : ℝ := ((w / 2 : ℕ) : ℝ)

/-- Mirror line height `mirror_y = center_y = height // 2` (integer
division, as in the source), as a real number. -/
def mirrorY (h : ℕ) : ℝ := ((h / 2 : ℕ) : ℝ)

/-- The top-edge candidate abscissa `x_at_top` of the edge extension. -/
def xAtTop (θ : ℝ) (w h : ℕ) : ℝ := centerX w + mirrorY h * Real.tan θ

/-- The right-edge candidate ordinate `y_at_right` of the edge
extension (meaningful only when `0 < θ`). -/
def yAtRight (θ : ℝ) (w h : ℕ) : ℝ :=
  mirrorY h - ((w : ℝ) - centerX w) / Real.tan θ

/-- The left-edge candidate ordinate `y_at_left` of the edge extension
(meaningful only when `θ < 0`). -/
def yAtLeft (θ : ℝ) (w h : ℕ) : ℝ :=
  mirrorY h - centerX w / Real.tan θ

/-- The filtered candidate list `intersections` of the edge extension,
each entry carrying `(x, y, distance key)`. -/
def candList (θ : ℝ) (w h : ℕ) : List (ℝ × ℝ × ℝ) :=
  (if 0 ≤ xAtTop θ w h ∧ xAtTop θ w h ≤ (w : ℝ) then
      [(xAtTop θ w h, 0, mirrorY h / Real.cos θ)] else [])
  ++ (if 0 < θ then
        (if 0 ≤ yAtRight θ w h ∧ yAtRight θ w h ≤ mirrorY h then
          [((w : ℝ), yAtRight θ w h, ((w : ℝ) - centerX w) / Real.cos θ)] else [])
      else [])
  ++ (if θ < 0 then
        (if 0 ≤ yAtLeft θ w h ∧ yAtLeft θ w h ≤ mirrorY h then
          [((0 : ℝ), yAtLeft θ w h, centerX w / Real.cos θ)] else [])
      else [])

/-- The foldl realizing Python's stable `sort` by the third component
followed by taking element `[0]`: the first element of least key. -/
def minCand (rest : List (ℝ × ℝ × ℝ)) (c : ℝ × ℝ × ℝ) : ℝ × ℝ × ℝ :=
  rest.foldl (fun b p => if p.2.2 < b.2.2 then p else b) c

/-- The fallback endpoint: top edge with the abscissa clamped into
`[0, width]`. -/
def fallbackPoint (θ : ℝ) (w h : ℕ) : ℝ × ℝ :=
  (max 0 (min (w : ℝ) (xAtTop θ w h)), 0)

/-- Selection step of the edge extension: first least-key candidate,
or the fallback when the list is empty. -/
def selectPoint (l : List (ℝ × ℝ × ℝ)) (fb : ℝ × ℝ) : ℝ × ℝ :=
  match l with
  | [] => fb
  | c :: rest => ((minCand rest c).1, (minCand rest c).2.1)

/-- Euclidean distance between two points of the plane. -/
def euclidDist (p q : ℝ × ℝ) : ℝ :=
  Real.sqrt ((p.1 - q.1) ^ 2 + (p.2 - q.2) ^ 2)

/-- The endpoints of the candidates surviving the bounds filter of the
edge extension: the top candidate is kept iff its `x` lies in `[0, W]`,
a side candidate iff its `y` lies in `[0, centerY]` where
`centerY = H // 2` is the mirror line as the code computes it. -/
def survivingEndpoints (θ : ℝ) (w h : ℕ) : List (ℝ × ℝ) :=
  (candList θ w h).map (fun p => (p.1, p.2.1))

/-- Modelled from the spec: the edge-extension selection exactly as
claim C2 words it — same candidate formulas as the code, but with the
side-edge filter bound `[0, H/2]` taken with real division (instead of
the code's mirror line `H // 2`) and selection by least Euclidean
distance from the reflection point `(W/2, H/2)`. -/
def claimSelectedEndpoint (θ : ℝ) (w h : ℕ) : ℝ × ℝ :=
  let rp : ℝ × ℝ := ((w : ℝ) / 2, (h : ℝ) / 2)
  let cands : List (ℝ × ℝ) :=
    (if 0 ≤ xAtTop θ w h ∧ xAtTop θ w h ≤ (w : ℝ) then
        [(xAtTop θ w h, (0 : ℝ))] else [])
    ++ (if 0 < θ then
          (if 0 ≤ yAtRight θ w h ∧ yAtRight θ w h ≤ (h : ℝ) / 2 then
            [((w : ℝ), yAtRight θ w h)] else [])
        else [])
    ++ (if θ < 0 then
          (if 0 ≤ yAtLeft θ w h ∧ yAtLeft θ w h ≤ (h : ℝ) / 2 then
            [((0 : ℝ), yAtLeft θ w h)] else [])
        else [])
  match cands with
  | [] => (max 0 (min (w : ℝ) (xAtTop θ w h)), 0)
  | c :: rest =>
      rest.foldl
        (fun b p => if euclidDist rp p < euclidDist rp b then p else b) c

/-- Reflected-ray endpoint drawn in transition frame `i` of
`_create_reflection_animation_frames` (src/generator.py lines 347-441):
`progress = i / (transition_frames - 1)` when `transition_frames > 1`,
else `1.0`; the partial ray is drawn only when `progress > 0`, from the
reflection point to `current_end`; `none` records that no reflected ray
is drawn in that frame.  The terminal endpoint is the one computed by
the block embedded as `animFinalEndpoint`. -/
def transitionRayEndpoint (θ : ℝ) (w h : ℕ) (tf i : ℕ) : Option (ℝ × ℝ) :=
  let progress : ℝ := if 1 < tf then (i : ℝ) / ((tf : ℝ) - 1) else 1
  if 0 < progress then
    let fe := animFinalEndpoint θ w h
    some (centerX w + (fe.1 - centerX w) * progress,
          mirrorY h - (mirrorY h - fe.2) * progress)
  else none

/-- Abstract descriptor of one animation frame: the images themselves
are abstracted to which still (or which transition index) the loop of
`_create_reflection_animation_frames` appends. -/
inductive Frame where
  | initialStill : Frame
  | transition : ℕ → Frame
  | finalStill : Frame
deriving DecidableEq

/-- Frame sequence built by `_create_reflection_animation_frames`
(src/generator.py lines 327-470): `hold_frames` appends of the initial
still, one transition frame per loop index of `range(transition_frames)`,
then `hold_frames` appends of the final still.  Python `range` of a
non-positive integer is empty, hence the `Int.toNat` coercions. -/
def animationFrames (hold tf : ℤ) : List Frame :=
  (List.range hold.toNat).map (fun _ => Frame.initialStill)
    ++ (List.range tf.toNat).map Frame.transition
    ++ (List.range hold.toNat).map (fun _ => Frame.finalStill)

/-- The three `"default"` prompt templates of `PROMPTS`
(src/prompts.py lines 17-23), each split at its single
`\x7breflectivity:.2f\x7d` placeholder into the text before and after
it. -/
def promptTemplates : List (String × String) :=
  [("Given the mirror reflectivity = ",
    ", predict the reflection of light when it hits the mirror."),
   ("Given the mirror reflectivity = ",
    ", predict how light reflects when it encounters the mirror."),
   ("Given the mirror reflectivity = ",
    ", predict the light reflection from the mirror surface.")]

/-- Modelled from the spec: Python fixed-point formatting `".2f"` of
the reflectivity value, over the rationals — round to the nearest
hundredth and print with exactly two digits after the decimal point
(exact-tie behaviour is immaterial to the claims). -/
def formatTwoDecimals (r : ℚ) : String :=
  let q : ℚ := r * 100 + 1 / 2
  let n : ℤ := Int.fdiv q.num (q.den : ℤ)
  let m : ℕ := n.natAbs
  (if n < 0 then "-" else "")
    ++ toString (m / 100) ++ "."
    ++ (if m % 100 < 10 then "0" else "") ++ toString (m % 100)

/-- Embedding of `get_prompt` (src/prompts.py lines 26-48): `PROMPTS` has the single
key `"default"`, so the dictionary lookup yields `promptTemplates` for
every task type; `random.choice` is modelled by the explicit index
`choice` (reduced modulo the list length); the chosen template is
formatted with the reflectivity and the fixed boundary-requirement
sentence is appended. -/
def getPrompt (_taskType : String) (r : ℚ) (choice : ℕ) : String :=
  let t := promptTemplates.getD (choice % promptTemplates.length)
    ("Given the mirror reflectivity = ",
     ", predict the reflection of light when it hits the mirror.")
  t.1 ++ formatTwoDecimals r ++ t.2
    ++ " Your generated light ray should go all the way until the boundary of the frame."

end

lemma reflectedEndpoint_eq_selectPoint (θ : ℝ) (w h : ℕ) :
    reflectedEndpoint θ w h =
      selectPoint (candList θ w h) (fallbackPoint θ w h) := by
  unfold reflectedEndpoint selectPoint candList minCand fallbackPoint
    xAtTop yAtRight yAtLeft centerX mirrorY
  by_cases h1 : 0 < θ <;> by_cases h2 : θ < 0 <;> simp [h1, h2]

lemma minCand_mem (rest : List (ℝ × ℝ × ℝ)) (c : ℝ × ℝ × ℝ) :
    minCand rest c ∈ c :: rest := by
  induction rest generalizing c with
  | nil => simp [minCand]
  | cons p ps ih =>
      have heq : minCand (p :: ps) c = minCand ps (if p.2.2 < c.2.2 then p else c) := rfl
      rw [heq]
      rcases List.mem_cons.1 (ih (if p.2.2 < c.2.2 then p else c)) with hmem | hmem
      · rw [hmem]
        by_cases hlt : p.2.2 < c.2.2 <;> simp [hlt]
      · simp [hmem]

/-- Case analysis for membership in the candidate list. -/
lemma candList_cases {θ : ℝ} {w h : ℕ} {p : ℝ × ℝ × ℝ}
    (hp : p ∈ candList θ w h) :
    (0 ≤ xAtTop θ w h ∧ xAtTop θ w h ≤ (w : ℝ) ∧
      p = (xAtTop θ w h, 0, mirrorY h / Real.cos θ)) ∨
    (0 < θ ∧ 0 ≤ yAtRight θ w h ∧ yAtRight θ w h ≤ mirrorY h ∧
      p = ((w : ℝ), yAtRight θ w h, ((w : ℝ) - centerX w) / Real.cos θ)) ∨
    (θ < 0 ∧ 0 ≤ yAtLeft θ w h ∧ yAtLeft θ w h ≤ mirrorY h ∧
      p = ((0 : ℝ), yAtLeft θ w h, centerX w / Real.cos θ)) := by
  unfold candList at hp
  rcases List.mem_append.1 hp with hp' | hp'
  · rcases List.mem_append.1 hp' with hp'' | hp''
    · left
      split_ifs at hp'' with hc
      · simp only [List.mem_singleton] at hp''
        exact ⟨hc.1, hc.2, hp''⟩
      · simp at hp''
    · right; left
      split_ifs at hp'' with hc1 hc2
      · simp only [List.mem_singleton] at hp''
        exact ⟨hc1, hc2.1, hc2.2, hp''⟩
      all_goals simp at hp''
  · right; right
    split_ifs at hp' with hc1 hc2
    · simp only [List.mem_singleton] at hp'
      exact ⟨hc1, hc2.1, hc2.2, hp'⟩
    all_goals simp at hp'

lemma centerX_nonneg (w : ℕ) : 0 ≤ centerX w := Nat.cast_nonneg _

lemma mirrorY_nonneg (h : ℕ) : 0 ≤ mirrorY h := Nat.cast_nonneg _

lemma centerX_le (w : ℕ) : centerX w ≤ (w : ℝ) :=
  Nat.cast_le.2 (Nat.div_le_self w 2)

lemma mirrorY_le_half (h : ℕ) : mirrorY h ≤ (h : ℝ) / 2 := by
  have := (Nat.cast_div_le : ((h / 2 : ℕ) : ℝ) ≤ (h : ℝ) / ((2 : ℕ) : ℝ))
  simpa [mirrorY] using this

/-- When both the top and the right candidate survive the filter, the
ray passes exactly through the top-right corner and both candidate
endpoints are `(W, 0)`. -/
lemma top_right_corner {θ : ℝ} {w h : ℕ} (hθpos : 0 < θ)
    (hθlt : θ < Real.pi / 2) (htop : xAtTop θ w h ≤ (w : ℝ))
    (hr : 0 ≤ yAtRight θ w h) :
    xAtTop θ w h = (w : ℝ) ∧ yAtRight θ w h = 0 := by
  have ht : 0 < Real.tan θ := Real.tan_pos_of_pos_of_lt_pi_div_two hθpos hθlt
  have hd : mirrorY h * Real.tan θ ≤ (w : ℝ) - centerX w := by
    have := htop
    unfold xAtTop at this
    linarith
  have hd' : (w : ℝ) - centerX w ≤ mirrorY h * Real.tan θ := by
    have := hr
    unfold yAtRight at this
    have h2 : ((w : ℝ) - centerX w) / Real.tan θ ≤ mirrorY h := by linarith
    calc (w : ℝ) - centerX w
        = ((w : ℝ) - centerX w) / Real.tan θ * Real.tan θ := by
          field_simp
      _ ≤ mirrorY h * Real.tan θ := by
          exact mul_le_mul_of_nonneg_right h2 (le_of_lt ht)
  have heq : mirrorY h * Real.tan θ = (w : ℝ) - centerX w := le_antisymm hd hd'
  constructor
  · unfold xAtTop
    linarith
  · unfold yAtRight
    rw [← heq]
    field_simp

/-- When both the top and the left candidate survive the filter, the
canvas centre is degenerate (`centerX = mirrorY = 0`). -/
lemma top_left_degenerate {θ : ℝ} {w h : ℕ} (hθneg : θ < 0)
    (hθgt : -(Real.pi / 2) < θ) (htop : 0 ≤ xAtTop θ w h)
    (hl : yAtLeft θ w h ≤ mirrorY h) :
    centerX w = 0 ∧ mirrorY h = 0 := by
  have ht : Real.tan θ < 0 := Real.tan_neg_of_neg_of_pi_div_two_lt hθneg hθgt
  have hc : centerX w = 0 := by
    have h2 : 0 ≤ centerX w / Real.tan θ := by
      unfold yAtLeft at hl
      linarith
    have h3 : centerX w / Real.tan θ ≤ 0 :=
      div_nonpos_of_nonneg_of_nonpos (centerX_nonneg w) (le_of_lt ht)
    have h4 : centerX w / Real.tan θ = 0 := le_antisymm h3 h2
    rcases div_eq_zero_iff.1 h4 with h5 | h5
    · exact h5
    · exact absurd h5 (ne_of_lt ht)
  have hm : mirrorY h = 0 := by
    have h2 : 0 ≤ mirrorY h * Real.tan θ := by
      unfold xAtTop at htop
      rw [hc] at htop
      linarith
    have h3 : mirrorY h * Real.tan θ ≤ 0 :=
      mul_nonpos_of_nonneg_of_nonpos (mirrorY_nonneg h) (le_of_lt ht)
    have h4 : mirrorY h * Real.tan θ = 0 := le_antisymm h3 h2
    rcases mul_eq_zero.1 h4 with h5 | h5
    · exact h5
    · exact absurd h5 (ne_of_lt ht)
  exact ⟨hc, hm⟩

/-- For an angle strictly between `-90°` and `90°`, any two surviving
candidates of the edge extension carry the same endpoint. -/
lemma candList_endpoints_eq {θ : ℝ} {w h : ℕ} (hθ : |θ| < Real.pi / 2)
    {p q : ℝ × ℝ × ℝ} (hp : p ∈ candList θ w h) (hq : q ∈ candList θ w h) :
    (p.1, p.2.1) = (q.1, q.2.1) := by
  have hθ' := abs_lt.1 hθ
  rcases candList_cases hp with ⟨a1, a2, hpe⟩ | ⟨a1, a2, a3, hpe⟩ | ⟨a1, a2, a3, hpe⟩
  · rcases candList_cases hq with ⟨b1, b2, hqe⟩ | ⟨b1, b2, b3, hqe⟩ | ⟨b1, b2, b3, hqe⟩
    · rw [hpe, hqe]
    · subst hpe; subst hqe
      rcases top_right_corner b1 hθ'.2 a2 b2 with ⟨hx, hy⟩
      dsimp only
      rw [hx, hy]
    · subst hpe; subst hqe
      rcases top_left_degenerate b1 hθ'.1 a1 b3 with ⟨hc, hm⟩
      have hx : xAtTop θ w h = 0 := by
        unfold xAtTop; rw [hc, hm]; ring
      have hy : yAtLeft θ w h = 0 := by
        unfold yAtLeft; rw [hc, hm]; simp
      dsimp only
      rw [hx, hy]
  · rcases candList_cases hq with ⟨b1, b2, hqe⟩ | ⟨b1, b2, b3, hqe⟩ | ⟨b1, b2, b3, hqe⟩
    · subst hpe; subst hqe
      rcases top_right_corner a1 hθ'.2 b2 a2 with ⟨hx, hy⟩
      dsimp only
      rw [hx, hy]
    · rw [hpe, hqe]
    · exact absurd (lt_trans a1 b1) (lt_irrefl 0)
  · rcases candList_cases hq with ⟨b1, b2, hqe⟩ | ⟨b1, b2, b3, hqe⟩ | ⟨b1, b2, b3, hqe⟩
    · subst hpe; subst hqe
      rcases top_left_degenerate a1 hθ'.1 b1 a3 with ⟨hc, hm⟩
      have hx : xAtTop θ w h = 0 := by
        unfold xAtTop; rw [hc, hm]; ring
      have hy : yAtLeft θ w h = 0 := by
        unfold yAtLeft; rw [hc, hm]; simp
      dsimp only
      rw [hx, hy]
    · exact absurd (lt_trans b1 a1) (lt_irrefl 0)
    · rw [hpe, hqe]

/-- C10: for any angle strictly between `-90°` and `90°` and any
positive canvas, the edge-extension endpoint (fallback included) lies
on the canvas boundary: on the top edge with `0 ≤ x ≤ W`, or on a side
edge (`x = 0` or `x = W`) with `0 ≤ y ≤ H/2`; it never lies strictly
inside the canvas nor outside it. -/
theorem reflectedEndpoint_on_boundary (θ : ℝ) (w h : ℕ)
    (hw : 0 < w) (hh : 0 < h) (hθ : |θ| < Real.pi / 2) :
    ((reflectedEndpoint θ w h).2 = 0 ∧
      0 ≤ (reflectedEndpoint θ w h).1 ∧ (reflectedEndpoint θ w h).1 ≤ (w : ℝ)) ∨
    (((reflectedEndpoint θ w h).1 = 0 ∨ (reflectedEndpoint θ w h).1 = (w : ℝ)) ∧
      0 ≤ (reflectedEndpoint θ w h).2 ∧ (reflectedEndpoint θ w h).2 ≤ (h : ℝ) / 2) := by
  rw [reflectedEndpoint_eq_selectPoint]
  rcases hcl : candList θ w h with _ | ⟨c, rest⟩
  · left
    unfold selectPoint fallbackPoint
    refine ⟨rfl, le_max_left 0 _, ?_⟩
    exact max_le (Nat.cast_nonneg w) (min_le_left _ _)
  · have hmem : minCand rest c ∈ candList θ w h := by
      rw [hcl]; exact minCand_mem rest c
    simp only [selectPoint]
    rcases candList_cases hmem with ⟨a1, a2, hpe⟩ | ⟨a1, a2, a3, hpe⟩ | ⟨a1, a2, a3, hpe⟩
    · left
      rw [hpe]
      exact ⟨rfl, a1, a2⟩
    · right
      rw [hpe]
      exact ⟨Or.inr rfl, a2, le_trans a3 (mirrorY_le_half h)⟩
    · right
      rw [hpe]
      exact ⟨Or.inl rfl, a2, le_trans a3 (mirrorY_le_half h)⟩

/-- C10 witness: the invariant instantiated at `θ = 0` on a `400 × 400`
canvas. -/
theorem reflectedEndpoint_on_boundary_witness :
    0 < 400 ∧ 0 < 400 ∧ |(0 : ℝ)| < Real.pi / 2 ∧
    (((reflectedEndpoint 0 400 400).2 = 0 ∧
        0 ≤ (reflectedEndpoint 0 400 400).1 ∧
        (reflectedEndpoint 0 400 400).1 ≤ ((400 : ℕ) : ℝ)) ∨
      (((reflectedEndpoint 0 400 400).1 = 0 ∨
          (reflectedEndpoint 0 400 400).1 = ((400 : ℕ) : ℝ)) ∧
        0 ≤ (reflectedEndpoint 0 400 400).2 ∧
        (reflectedEndpoint 0 400 400).2 ≤ ((400 : ℕ) : ℝ) / 2)) := by
  have habs : |(0 : ℝ)| < Real.pi / 2 := by
    simpa using Real.pi_div_two_pos
  exact ⟨by norm_num, by norm_num, habs,
    reflectedEndpoint_on_boundary 0 400 400 (by norm_num) (by norm_num) habs⟩

/-- C2 (amended): for `|θ| < 90°` the edge extension discards a
top-edge candidate whose `x` is outside `[0, W]` and a side-edge
candidate whose `y` is outside `[0, H // 2]` (the mirror line), selects
among the surviving candidates one whose Euclidean distance from the
reflection point is least, and, when no candidate survives, returns the
top-edge intersection with `x` clamped into `[0, W]` and `y = 0`. -/
theorem edge_extension_select (θ : ℝ) (w h : ℕ) (hθ : |θ| < Real.pi / 2) :
    (survivingEndpoints θ w h ≠ [] →
       reflectedEndpoint θ w h ∈ survivingEndpoints θ w h ∧
       ∀ q ∈ survivingEndpoints θ w h,
         euclidDist (centerX w, mirrorY h) (reflectedEndpoint θ w h) ≤
           euclidDist (centerX w, mirrorY h) q) ∧
    (survivingEndpoints θ w h = [] →
       reflectedEndpoint θ w h = (max 0 (min (w : ℝ) (xAtTop θ w h)), 0)) := by
  constructor
  · intro hne
    rcases hcl : candList θ w h with _ | ⟨c, rest⟩
    · exact absurd (by simp [survivingEndpoints, hcl]) hne
    · have hmem : minCand rest c ∈ candList θ w h := by
        rw [hcl]; exact minCand_mem rest c
      have hend : reflectedEndpoint θ w h =
          ((minCand rest c).1, (minCand rest c).2.1) := by
        rw [reflectedEndpoint_eq_selectPoint, hcl]; rfl
      constructor
      · rw [hend]
        unfold survivingEndpoints
        exact List.mem_map_of_mem _ hmem
      · intro q hq
        unfold survivingEndpoints at hq
        rcases List.mem_map.1 hq with ⟨q', hq', hqe⟩
        have heq := candList_endpoints_eq hθ hmem hq'
        rw [hend, ← hqe, ← heq]
  · intro hemp
    unfold survivingEndpoints at hemp
    have hcl : candList θ w h = [] := List.map_eq_nil_iff.1 hemp
    rw [reflectedEndpoint_eq_selectPoint, hcl]
    rfl

/-- C2 witness: at `θ = 0` on a `400 × 400` canvas the only surviving
candidate is the top-edge point `(200, 0)` and it is selected. -/
theorem edge_extension_select_witness :
    |(0 : ℝ)| < Real.pi / 2 ∧
    ((survivingEndpoints 0 400 400 ≠ [] →
        reflectedEndpoint 0 400 400 ∈ survivingEndpoints 0 400 400 ∧
        ∀ q ∈ survivingEndpoints 0 400 400,
          euclidDist (centerX 400, mirrorY 400) (reflectedEndpoint 0 400 400) ≤
            euclidDist (centerX 400, mirrorY 400) q) ∧
      (survivingEndpoints 0 400 400 = [] →
        reflectedEndpoint 0 400 400 =
          (max 0 (min ((400 : ℕ) : ℝ) (xAtTop 0 400 400)), 0))) := by
  have habs : |(0 : ℝ)| < Real.pi / 2 := by
    simpa using Real.pi_div_two_pos
  exact ⟨habs, edge_extension_select 0 400 400 habs⟩

/-- C2 counterexample: at `θ = -arctan 2` on a `2 × 3` canvas the code
discards the left-edge candidate because its `y = 3/2` exceeds the
mirror line `3 // 2 = 1`, and falls back to `(0, 0)`; the claim's
filter bound `[0, H/2] = [0, 3/2]` instead keeps that candidate, whose
selection yields `(0, 3/2)`.  The claim as stated therefore disagrees
with the code on this input. -/
theorem edge_extension_claim_filter_counterexample :
    |(-(Real.arctan 2))| < Real.pi / 2 ∧
    reflectedEndpoint (-(Real.arctan 2)) 2 3 = (0, 0) ∧
    claimSelectedEndpoint (-(Real.arctan 2)) 2 3 = (0, 3 / 2) ∧
    reflectedEndpoint (-(Real.arctan 2)) 2 3 ≠
      claimSelectedEndpoint (-(Real.arctan 2)) 2 3 := by
  have harc : 0 < Real.arctan 2 := by
    have h2 := Real.arctan_strictMono (show (0 : ℝ) < 2 by norm_num)
    simpa [Real.arctan_zero] using h2
  have hneg : -(Real.arctan 2) < 0 := by linarith
  have hnpos : ¬ (0 : ℝ) < -(Real.arctan 2) := by linarith
  have htan : Real.tan (-(Real.arctan 2)) = -2 := by
    rw [Real.tan_neg, Real.tan_arctan]
  have habs : |(-(Real.arctan 2))| < Real.pi / 2 := by
    rw [abs_lt]
    constructor
    · simpa using Real.arctan_lt_pi_div_two 2
    · linarith [Real.pi_div_two_pos]
  have hcx : centerX 2 = 1 := by norm_num [centerX]
  have hmy : mirrorY 3 = 1 := by norm_num [mirrorY]
  have hxt : xAtTop (-(Real.arctan 2)) 2 3 = -1 := by
    rw [xAtTop, hcx, hmy, htan]; norm_num
  have hyl : yAtLeft (-(Real.arctan 2)) 2 3 = 3 / 2 := by
    rw [yAtLeft, hcx, hmy, htan]; norm_num
  have hcl : candList (-(Real.arctan 2)) 2 3 = [] := by
    unfold candList
    rw [hxt, hyl, hmy, if_neg hnpos, if_pos hneg]
    norm_num
  have hre : reflectedEndpoint (-(Real.arctan 2)) 2 3 = (0, 0) := by
    rw [reflectedEndpoint_eq_selectPoint, hcl]
    show fallbackPoint (-(Real.arctan 2)) 2 3 = (0, 0)
    unfold fallbackPoint
    rw [hxt]
    norm_num
  have hce : claimSelectedEndpoint (-(Real.arctan 2)) 2 3 = (0, 3 / 2) := by
    unfold claimSelectedEndpoint
    rw [hxt, hyl, if_neg hnpos, if_pos hneg]
    norm_num
  refine ⟨habs, hre, hce, ?_⟩
  rw [hre, hce]
  intro hcontra
  have := congrArg Prod.snd hcontra
  norm_num at this

/-- C7: concrete edge-selection instances on a `400 × 400` canvas: at
`0°` the selected endpoint is the top-edge point `(200, 0)`; at `30°`
the top edge is selected with endpoint `(200 + 200·tan 30°, 0)`, whose
abscissa is within `0.01` of `315.47`; at `80°` the top-edge candidate
`200 + 200·tan 80°` exceeds the width `400`, is discarded, and the
right-edge candidate at `x = 400` is selected. -/
theorem concrete_edge_selection :
    reflectedEndpoint 0 400 400 = (200, 0) ∧
    (reflectedEndpoint (Real.pi / 6) 400 400 =
        (200 + 200 * Real.tan (Real.pi / 6), 0) ∧
      |200 + 200 * Real.tan (Real.pi / 6) - 315.47| < 0.01) ∧
    (reflectedEndpoint (4 * Real.pi / 9) 400 400 =
        (400, 200 - 200 / Real.tan (4 * Real.pi / 9)) ∧
      (400 : ℝ) < 200 + 200 * Real.tan (4 * Real.pi / 9)) := by
  have hcx : centerX 400 = 200 := by norm_num [centerX]
  have hmy : mirrorY 400 = 200 := by norm_num [mirrorY]
  have hpi := Real.pi_pos
  -- facts about tan (π/6)
  have hs3 : 0 < Real.sqrt 3 := Real.sqrt_pos.2 (by norm_num)
  have hs3l : (1.7320 : ℝ) < Real.sqrt 3 :=
    (Real.lt_sqrt (by norm_num)).2 (by norm_num)
  have hs3u : Real.sqrt 3 < 1.7321 :=
    (Real.sqrt_lt' (by norm_num)).2 (by norm_num)
  have htan6 : Real.tan (Real.pi / 6) = 1 / Real.sqrt 3 := by
    rw [Real.tan_eq_sin_div_cos, Real.sin_pi_div_six, Real.cos_pi_div_six]
    rw [div_div_div_comm]
    norm_num
  have htan6pos : 0 < Real.tan (Real.pi / 6) := by
    rw [htan6]; positivity
  have htan6u : Real.tan (Real.pi / 6) < 1 / 1.7320 := by
    rw [htan6]; exact one_div_lt_one_div_of_lt (by norm_num) hs3l
  have htan6l : (1 : ℝ) / 1.7321 < Real.tan (Real.pi / 6) := by
    rw [htan6]; exact one_div_lt_one_div_of_lt hs3 hs3u
  -- facts about tan (4π/9)
  have h9pos : 0 < 4 * Real.pi / 9 := by positivity
  have htan9 : 1 < Real.tan (4 * Real.pi / 9) := by
    have hm4 : Real.pi / 4 ∈ Set.Ioo (-(Real.pi / 2)) (Real.pi / 2) :=
      ⟨by linarith, by linarith⟩
    have hm9 : 4 * Real.pi / 9 ∈ Set.Ioo (-(Real.pi / 2)) (Real.pi / 2) :=
      ⟨by linarith, by linarith⟩
    have hlt := Real.strictMonoOn_tan hm4 hm9 (by linarith)
    rwa [Real.tan_pi_div_four] at hlt
  refine ⟨?_, ⟨?_, ?_⟩, ?_, ?_⟩
  · -- θ = 0: top edge selected at (200, 0)
    have hxt : xAtTop 0 400 400 = 200 := by
      rw [xAtTop, hcx, hmy, Real.tan_zero]; ring
    have hcl : candList 0 400 400 = [(200, 0, mirrorY 400 / Real.cos 0)] := by
      unfold candList
      rw [hxt, if_neg (lt_irrefl (0 : ℝ)), if_neg (lt_irrefl (0 : ℝ)),
        if_pos (by norm_num : (0 : ℝ) ≤ 200 ∧ (200 : ℝ) ≤ ((400 : ℕ) : ℝ))]
      simp
    rw [reflectedEndpoint_eq_selectPoint, hcl]
    rfl
  · -- θ = π/6: top edge selected
    have hxt : xAtTop (Real.pi / 6) 400 400 =
        200 + 200 * Real.tan (Real.pi / 6) := by
      rw [xAtTop, hcx, hmy]
    have hyr : yAtRight (Real.pi / 6) 400 400 =
        200 - 200 / Real.tan (Real.pi / 6) := by
      rw [yAtRight, hcx, hmy]; norm_num
    have hyrneg : yAtRight (Real.pi / 6) 400 400 < 0 := by
      rw [hyr]
      have h200 : (200 : ℝ) < 200 / Real.tan (Real.pi / 6) := by
        rw [lt_div_iff₀ htan6pos]
        nlinarith
      linarith
    have hcl : candList (Real.pi / 6) 400 400 =
        [(xAtTop (Real.pi / 6) 400 400, 0, mirrorY 400 / Real.cos (Real.pi / 6))] := by
      unfold candList
      rw [if_pos (by positivity : (0 : ℝ) < Real.pi / 6),
        if_neg (by linarith : ¬ Real.pi / 6 < 0),
        if_pos (show 0 ≤ xAtTop (Real.pi / 6) 400 400 ∧
            xAtTop (Real.pi / 6) 400 400 ≤ ((400 : ℕ) : ℝ) by
          rw [hxt]
          constructor
          · nlinarith
          · push_cast
            nlinarith),
        if_neg (show ¬ (0 ≤ yAtRight (Real.pi / 6) 400 400 ∧
            yAtRight (Real.pi / 6) 400 400 ≤ mirrorY 400) from
          fun hc => absurd hyrneg (not_lt.2 hc.1))]
      simp
    rw [reflectedEndpoint_eq_selectPoint, hcl]
    show (xAtTop (Real.pi / 6) 400 400, (0 : ℝ)) =
      (200 + 200 * Real.tan (Real.pi / 6), 0)
    rw [hxt]
  · -- θ = π/6: numeric bound on the abscissa
    rw [abs_lt]
    constructor <;> nlinarith
  · -- θ = 4π/9: right edge selected
    have hxt : xAtTop (4 * Real.pi / 9) 400 400 =
        200 + 200 * Real.tan (4 * Real.pi / 9) := by
      rw [xAtTop, hcx, hmy]
    have hyr : yAtRight (4 * Real.pi / 9) 400 400 =
        200 - 200 / Real.tan (4 * Real.pi / 9) := by
      rw [yAtRight, hcx, hmy]; norm_num
    have hdiv : 200 / Real.tan (4 * Real.pi / 9) < 200 :=
      div_lt_self (by norm_num) htan9
    have hdivpos : 0 < 200 / Real.tan (4 * Real.pi / 9) := by positivity
    have hcl : candList (4 * Real.pi / 9) 400 400 =
        [(((400 : ℕ) : ℝ), yAtRight (4 * Real.pi / 9) 400 400,
          (((400 : ℕ) : ℝ) - centerX 400) / Real.cos (4 * Real.pi / 9))] := by
      unfold candList
      rw [if_pos h9pos, if_neg (by linarith : ¬ 4 * Real.pi / 9 < 0),
        if_neg (show ¬ (0 ≤ xAtTop (4 * Real.pi / 9) 400 400 ∧
            xAtTop (4 * Real.pi / 9) 400 400 ≤ ((400 : ℕ) : ℝ)) from by
          rintro ⟨-, hc2⟩
          rw [hxt] at hc2
          push_cast at hc2
          nlinarith),
        if_pos (show 0 ≤ yAtRight (4 * Real.pi / 9) 400 400 ∧
            yAtRight (4 * Real.pi / 9) 400 400 ≤ mirrorY 400 by
          rw [hyr, hmy]
          constructor <;> linarith)]
      simp
    rw [reflectedEndpoint_eq_selectPoint, hcl]
    show (((400 : ℕ) : ℝ), yAtRight (4 * Real.pi / 9) 400 400) =
      (400, 200 - 200 / Real.tan (4 * Real.pi / 9))
    rw [hyr]
    norm_num
  · -- θ = 4π/9: the discarded top-edge candidate exceeds the width
    linarith

/-- C4 counterexample: with the default 25 transition frames, frame 0
has `progress = 0` and the code draws no reflected ray at all (the
`progress > 0` guard fails), contrary to the claim that every
transition frame draws a partial reflected ray from the reflection
point to the interpolated endpoint. -/
theorem transition_frame_zero_draws_nothing :
    transitionRayEndpoint 0 400 400 25 0 = none := by
  simp only [transitionRayEndpoint]
  norm_num

/-- C4 (amended): every transition frame whose progress is positive —
index `i ≥ 1`, or the sole frame of a single-frame transition — draws
the partial reflected ray ending at
`reflectionPoint + progress·(finalEnd − reflectionPoint)` componentwise,
with `progress = i/(transitionFrames − 1)` for `transitionFrames > 1`
and `progress = 1.0` otherwise; the remaining frame (`i = 0` with more
than one transition frame) draws no reflected ray at all. -/
theorem transition_frame_endpoint (θ : ℝ) (w h : ℕ) (tf i : ℕ)
    (hi : i < tf) :
    (1 ≤ i ∨ tf = 1 →
      transitionRayEndpoint θ w h tf i =
        some (centerX w + (if 1 < tf then (i : ℝ) / ((tf : ℝ) - 1) else 1) *
                ((animFinalEndpoint θ w h).1 - centerX w),
              mirrorY h + (if 1 < tf then (i : ℝ) / ((tf : ℝ) - 1) else 1) *
                ((animFinalEndpoint θ w h).2 - mirrorY h))) ∧
    (i = 0 ∧ 1 < tf → transitionRayEndpoint θ w h tf i = none) := by
  constructor
  · intro hpos
    by_cases htf : 1 < tf
    · have hi1 : 1 ≤ i := by
        rcases hpos with h1 | h1
        · exact h1
        · omega
      have hipos : (0 : ℝ) < (i : ℝ) := by
        have h1 : (1 : ℝ) ≤ (i : ℝ) := by exact_mod_cast hi1
        linarith
      have h2 : (2 : ℝ) ≤ (tf : ℝ) := by exact_mod_cast htf
      have hp : 0 < (i : ℝ) / ((tf : ℝ) - 1) := div_pos hipos (by linarith)
      simp only [transitionRayEndpoint]
      rw [if_pos htf, if_pos hp]
      simp only [Option.some.injEq, Prod.mk.injEq]
      constructor <;> ring
    · have hp1 : (0 : ℝ) < 1 := by norm_num
      simp only [transitionRayEndpoint]
      rw [if_neg htf, if_pos hp1]
      simp only [Option.some.injEq, Prod.mk.injEq]
      constructor <;> ring
  · rintro ⟨hi0, htf⟩
    subst hi0
    simp only [transitionRayEndpoint]
    rw [if_pos htf]
    norm_num

/-- C4 witness: the amended statement instantiated at `θ = 0`,
`400 × 400`, 25 transition frames, frame index 1. -/
theorem transition_frame_endpoint_witness :
    1 < 25 ∧
    ((1 ≤ 1 ∨ 25 = 1 →
        transitionRayEndpoint 0 400 400 25 1 =
          some (centerX 400 +
                  (if 1 < 25 then ((1 : ℕ) : ℝ) / (((25 : ℕ) : ℝ) - 1) else 1) *
                    ((animFinalEndpoint 0 400 400).1 - centerX 400),
                mirrorY 400 +
                  (if 1 < 25 then ((1 : ℕ) : ℝ) / (((25 : ℕ) : ℝ) - 1) else 1) *
                    ((animFinalEndpoint 0 400 400).2 - mirrorY 400))) ∧
      (1 = 0 ∧ 1 < 25 → transitionRayEndpoint 0 400 400 25 1 = none)) :=
  ⟨by norm_num, transition_frame_endpoint 0 400 400 25 1 (by norm_num)⟩

/-- C5: for every angle, canvas and `transitionFrames ≥ 1`, the last
transition frame (the one with `progress = 1.0`) draws the reflected
ray to exactly the endpoint of the final still:
`reflectionPoint + 1.0 · (finalEnd − reflectionPoint) = finalEnd`. -/
theorem last_transition_frame_matches_final (θ : ℝ) (w h : ℕ) (tf : ℕ)
    (htf : 1 ≤ tf) :
    transitionRayEndpoint θ w h tf (tf - 1) =
      some (reflectedEndpoint θ w h) := by
  have hanim : animFinalEndpoint θ w h = reflectedEndpoint θ w h := rfl
  by_cases h1 : 1 < tf
  · have hcast : ((tf - 1 : ℕ) : ℝ) = (tf : ℝ) - 1 := by
      push_cast [htf]
      ring
    have h2 : (2 : ℝ) ≤ (tf : ℝ) := by exact_mod_cast h1
    have hne : (tf : ℝ) - 1 ≠ 0 := by linarith
    have hp : ((tf - 1 : ℕ) : ℝ) / ((tf : ℝ) - 1) = 1 := by
      rw [hcast, div_self hne]
    simp only [transitionRayEndpoint]
    rw [if_pos h1, hp, if_pos (show (0 : ℝ) < 1 by norm_num), hanim]
    simp only [Option.some.injEq, Prod.ext_iff]
    constructor <;> ring
  · simp only [transitionRayEndpoint]
    rw [if_neg h1, if_pos (show (0 : ℝ) < 1 by norm_num), hanim]
    simp only [Option.some.injEq, Prod.ext_iff]
    constructor <;> ring

/-- C5 witness: a single-frame transition on a `400 × 400` canvas at
`θ = 0` ends exactly at the final still's endpoint. -/
theorem last_transition_frame_matches_final_witness :
    1 ≤ 1 ∧
    transitionRayEndpoint 0 400 400 1 (1 - 1) =
      some (reflectedEndpoint 0 400 400) :=
  ⟨le_refl 1, last_transition_frame_matches_final 0 400 400 1 (le_refl 1)⟩

/-- C6: the animation is exactly `holdFrames` copies of the initial
still, followed by `max(transitionFrames, 0)` transition frames,
followed by `holdFrames` copies of the final still; in particular for
`transitionFrames ≤ 0` the transition segment is empty and the sequence
has length `2 · holdFrames`. -/
theorem animation_frame_structure (hold tf : ℤ) (hh : 0 ≤ hold) :
    animationFrames hold tf =
      List.replicate hold.toNat Frame.initialStill
        ++ (List.range (max tf 0).toNat).map Frame.transition
        ++ List.replicate hold.toNat Frame.finalStill ∧
    (tf ≤ 0 → (animationFrames hold tf).length = 2 * hold.toNat) := by
  have hmax : (max tf 0).toNat = tf.toNat := by omega
  constructor
  · unfold animationFrames
    rw [hmax]
    simp [List.map_const', List.length_range]
  · intro htf
    have h0 : tf.toNat = 0 := by omega
    unfold animationFrames
    rw [h0]
    simp [List.length_append, List.length_map, List.length_range]
    omega

/-- C6 witness: `holdFrames = 2`, `transitionFrames = -3` gives two
initial stills, no transition frames, two final stills, length 4. -/
theorem animation_frame_structure_witness :
    (0 : ℤ) ≤ 2 ∧
    (animationFrames 2 (-3) =
        List.replicate (2 : ℤ).toNat Frame.initialStill
          ++ (List.range (max (-3 : ℤ) 0).toNat).map Frame.transition
          ++ List.replicate (2 : ℤ).toNat Frame.finalStill ∧
      ((-3 : ℤ) ≤ 0 → (animationFrames 2 (-3)).length = 2 * (2 : ℤ).toNat)) :=
  ⟨by norm_num, animation_frame_structure 2 (-3) (by norm_num)⟩

/-- C8 counterexample: with an invalid reflectivity range
(`min = 1 > 0 = max`) the sampling step does not fail fast: the
`random.uniform` call still produces the interpolated value — here
reflectivity `1/2` at entropy `u = 1/2` — so a value is silently
produced, contrary to the claim. -/
theorem sampling_no_failfast_counterexample :
    (generateTaskData 1 0 45 45 (1 / 2) (1 / 2)).reflectivity = 1 / 2 := by
  norm_num [generateTaskData, uniform]

/-- C8 (amended): the sampling step performs no range validation: for
`reflectivity_min > reflectivity_max` and entropy `u ∈ [0, 1]` it
silently produces the value `min + (max − min) · u`, which lies in
`[max, min]`; no configuration error is raised and nothing is
clamped. -/
theorem sampling_reversed_range_produces_value
    (rmin rmax tmin tmax ur ut : ℝ) (hr : rmax < rmin)
    (hu0 : 0 ≤ ur) (hu1 : ur ≤ 1) :
    (generateTaskData rmin rmax tmin tmax ur ut).reflectivity =
      rmin + (rmax - rmin) * ur ∧
    rmax ≤ (generateTaskData rmin rmax tmin tmax ur ut).reflectivity ∧
    (generateTaskData rmin rmax tmin tmax ur ut).reflectivity ≤ rmin := by
  refine ⟨rfl, ?_, ?_⟩
  · show rmax ≤ rmin + (rmax - rmin) * ur
    nlinarith
  · show rmin + (rmax - rmin) * ur ≤ rmin
    nlinarith

/-- C8 witness: the amended statement at range `(1, 0)` and entropy
`1/2`: the produced reflectivity is `1/2 ∈ [0, 1]`. -/
theorem sampling_reversed_range_produces_value_witness :
    (0 : ℝ) < 1 ∧ (0 : ℝ) ≤ 1 / 2 ∧ (1 : ℝ) / 2 ≤ 1 ∧
    ((generateTaskData 1 0 45 45 (1 / 2) (1 / 2)).reflectivity =
        1 + (0 - 1) * (1 / 2) ∧
      (0 : ℝ) ≤ (generateTaskData 1 0 45 45 (1 / 2) (1 / 2)).reflectivity ∧
      (generateTaskData 1 0 45 45 (1 / 2) (1 / 2)).reflectivity ≤ 1) :=
  ⟨by norm_num, by norm_num, by norm_num,
    sampling_reversed_range_produces_value 1 0 45 45 (1 / 2) (1 / 2)
      (by norm_num) (by norm_num) (by norm_num)⟩

/-- C9: every prompt string returned by `get_prompt` contains the
reflectivity formatted to exactly two decimal places, for every task
type and template choice; in particular for reflectivity `0.73` the
prompt contains the substring `"0.73"`. -/
theorem prompt_contains_reflectivity :
    (∀ (tt : String) (r : ℚ) (c : ℕ),
        ∃ s1 s2, getPrompt tt r c = s1 ++ formatTwoDecimals r ++ s2) ∧
    (∀ (tt : String) (c : ℕ),
        ∃ s1 s2, getPrompt tt (73 / 100) c = s1 ++ "0.73" ++ s2) := by
  have hmain : ∀ (tt : String) (r : ℚ) (c : ℕ),
      ∃ s1 s2, getPrompt tt r c = s1 ++ formatTwoDecimals r ++ s2 := by
    intro tt r c
    refine ⟨(promptTemplates.getD (c % promptTemplates.length)
        ("Given the mirror reflectivity = ",
         ", predict the reflection of light when it hits the mirror.")).1,
      (promptTemplates.getD (c % promptTemplates.length)
        ("Given the mirror reflectivity = ",
         ", predict the reflection of light when it hits the mirror.")).2 ++
        " Your generated light ray should go all the way until the boundary of the frame.",
      ?_⟩
    exact String.append_assoc _ _ _
  have hfmt : formatTwoDecimals (73 / 100) = "0.73" := by
    have hnum : ((73 / 100 : ℚ) * 100 + 1 / 2).num = 147 := by norm_num
    have hden : ((73 / 100 : ℚ) * 100 + 1 / 2).den = 2 := by norm_num
    simp only [formatTwoDecimals]
    rw [hnum, hden]
    decide
  refine ⟨hmain, fun tt c => ?_⟩
  obtain ⟨s1, s2, hp⟩ := hmain tt (73 / 100) c
  exact ⟨s1, s2, by rw [hp, hfmt]⟩

/-- C1: the duplicated edge-extension computations of
`_render_final_state` and `_create_reflection_animation_frames` denote
the same function of `(theta_reflected, width, height)`; the terminal
endpoints agree exactly for every angle and canvas size. -/
theorem animFinalEndpoint_eq_reflectedEndpoint :
    ∀ (θ : ℝ) (width height : ℕ),
      animFinalEndpoint θ width height = reflectedEndpoint θ width height :=
  fun _ _ _ => rfl

/-- C3: the generated task data always satisfies the law of reflection
exactly: reflected degrees equal incident degrees, reflected radians
equal incident radians, and each radian field is the degree field
multiplied by `π / 180`, for every sampled reflectivity and angle. -/
theorem taskData_law_of_reflection :
    ∀ rmin rmax tmin tmax ur ut : ℝ,
      (generateTaskData rmin rmax tmin tmax ur ut).theta_reflected_degrees =
        (generateTaskData rmin rmax tmin tmax ur ut).theta_incident_degrees ∧
      (generateTaskData rmin rmax tmin tmax ur ut).theta_reflected_radians =
        (generateTaskData rmin rmax tmin tmax ur ut).theta_incident_radians ∧
      (generateTaskData rmin rmax tmin tmax ur ut).theta_incident_radians =
        (generateTaskData rmin rmax tmin tmax ur ut).theta_incident_degrees *
          Real.pi / 180 ∧
      (generateTaskData rmin rmax tmin tmax ur ut).theta_reflected_radians =
        (generateTaskData rmin rmax tmin tmax ur ut).theta_reflected_degrees *
          Real.pi / 180 := by
  intro rmin rmax tmin tmax ur ut
  refine ⟨rfl, rfl, ?_, ?_⟩ <;>
    simp [generateTaskData, radiansOfDegrees, mul_div_assoc]

end MirrorGen
